import Mathlib

/-!
Shallow embedding of the orderbook data layer of `src/orderbook.rs`
(poly-arb-test): the message interpreter / state-store mutator
`process_message`, together with the signal-publishing step of
`run_websocket_loop`.

Modelling conventions:
* A raw inbound WebSocket text frame is represented by its
  `serde_json::from_str` result, an `Option JsonVal` (`none` = the text
  is not parseable JSON).  `JsonVal` models `serde_json::Value`;
  objects are association lists (our statements never use duplicate
  keys, where `serde_json` would keep the last occurrence).
* `price.parse::<f64>()` followed by `format!("\x7b:.2\x7d", 1.0 - p)` is
  modelled bit-exactly over IEEE binary64 values: `parseDecimal` parses a
  decimal numeral into its exact value (`DecimalVal`, mantissa / 10^scale;
  this covers the grammar — the exponent, infinity and NaN forms of Rust's
  float grammar are not modelled, and no claim involves them), `toF64`
  rounds that value to the nearest binary64 (53-bit significand, ties to
  even, subnormals at quantum `2^-1074`, overflow to infinity), `oneMinusF`
  is the IEEE subtraction `1.0 - p` (exact difference, then the same
  rounding), and `fmtF64` renders the exact value of the resulting
  binary64 rounded to two decimal places with ties to even, which is
  Rust's fixed-precision formatting.  The `fmtF64_oneMinusF_*` theorems
  below validate the pipeline on boundary inputs against the native one
  (for example `"0.005"` yields `"0.99"`: the parsed double lies above
  `0.005`, so the subtraction falls strictly below `0.995`).
* `chrono::Utc::now().timestamp_millis()` becomes an explicit `now_ms`
  argument.
* The `tokio::sync::RwLock` write block (lines 203-249) and the
  `update_tx.send` in `run_websocket_loop` (line 140) are modelled by an
  event trace `loopTrace` recording, in source order, the acquisition of
  the write lock, its release together with the committed snapshot, and
  the publication of the `StateUpdated` signal.
-/

set_option maxRecDepth 16384

namespace PolyArb

/-- Model of `serde_json::Value` as far as `process_message` inspects it. -/
inductive JsonVal where
  | jnull
  | jbool (b : Bool)
  | jnum (n : ℤ)
  | jstr (s : String)
  | jarr (elems : List JsonVal)
  | jobj (fields : List (String × JsonVal))

/-- Model of `Value::get(key)`: field lookup on objects, `None` elsewhere. -/
def JsonVal.getKey (v : JsonVal) (key : String) : Option JsonVal :=
  match v with
  | .jobj fields => fields.lookup key
  | _ => none

/-- Model of `Value::as_str()`. -/
def JsonVal.asStr : JsonVal → Option String
  | .jstr s => some s
  | _ => none

/-- Model of `Value::as_array()` (we drop the `cloned` copy, which is
value-irrelevant). -/
def JsonVal.asArr : JsonVal → Option (List JsonVal)
  | .jarr l => some l
  | _ => none

/-- Exact value of a decimal numeral: `mantissa / 10 ^ scale`.  This is
what the float grammar accepts, before `toF64` rounds it to binary64
(see the module comment). -/
structure DecimalVal where
  mantissa : ℤ
  scale : ℕ
deriving DecidableEq

/-- Numeric value of a digit string (most significant digit first). -/
def digitsToNat (cs : List Char) : ℕ :=
  cs.foldl (fun a c => 10 * a + (c.toNat - 48)) 0

/-- Unsigned part of the float grammar: digits with an optional decimal
point, at least one digit in total (`"5."`, `".5"`, `"3.14"`, `"7"`). -/
def parseUnsignedDec (cs : List Char) : Option DecimalVal :=
  match cs.splitOn '.' with
  | [d] =>
    if d ≠ [] ∧ d.all Char.isDigit then some ⟨(digitsToNat d : ℤ), 0⟩ else none
  | [d, f] =>
    if (d ++ f) ≠ [] ∧ (d ++ f).all Char.isDigit then
      some ⟨(digitsToNat d * 10 ^ f.length + digitsToNat f : ℕ), f.length⟩
    else none
  | _ => none

/-- Model of `str::parse::<f64>()` on decimal numerals with optional sign
(exponent / infinity / NaN forms are not modelled; no claim involves them). -/
def parseDecimal (s : String) : Option DecimalVal :=
  match s.toList with
  | '+' :: rest => parseUnsignedDec rest
  | '-' :: rest => (parseUnsignedDec rest).map (fun x => ⟨-x.mantissa, x.scale⟩)
  | cs => parseUnsignedDec cs

/-- Rounded division `n / d` (`d > 0`) to the nearest integer, ties to
even — the rounding mode of every step of the IEEE pipeline below. -/
def divRoundHalfEven (n d : ℤ) : ℤ :=
  let f := Int.fdiv n d
  let r := n - f * d
  if 2 * r < d then f
  else if d < 2 * r then f + 1
  else if f % 2 = 0 then f else f + 1

/-- Two-digit zero-padded numeral for the fractional part. -/
def pad2 (k : ℕ) : String :=
  if k < 10 then "0" ++ toString k else toString k

/-- Number of binary digits of `n` (fuel-based so it is structurally
recursive; `n` itself is always enough fuel). -/
def bitLenAux : ℕ → ℕ → ℕ
  | 0, _ => 0
  | fuel + 1, n => if n = 0 then 0 else bitLenAux fuel (n / 2) + 1

/-- Number of binary digits: `2 ^ (bitLen n - 1) ≤ n < 2 ^ bitLen n`. -/
def bitLen (n : ℕ) : ℕ := bitLenAux n n

/-- `a / d / 2 ^ q` rounded to the nearest natural number, ties to even
(`a, d` natural, `d > 0`, `q` a possibly negative binary exponent). -/
def rheDivPow (a d : ℕ) (q : ℤ) : ℕ :=
  (if 0 ≤ q then divRoundHalfEven (a : ℤ) ((d : ℤ) * 2 ^ q.toNat)
   else divRoundHalfEven ((a : ℤ) * 2 ^ (-q).toNat) (d : ℤ)).natAbs

/-- Decides `a / d < 2 ^ t` over the integers. -/
def ratLtPow2 (a d : ℕ) (t : ℤ) : Bool :=
  if 0 ≤ t then decide (a < d * 2 ^ t.toNat)
  else decide (a * 2 ^ (-t).toNat < d)

/-- Round the positive rational `a / d` (`a, d > 0`) to the nearest IEEE
binary64 value, ties to even: `some (M, q)` denotes the value `M * 2 ^ q`
(subnormals use the fixed quantum `2 ^ -1074`), `none` is overflow to
infinity.  `q0` estimated from bit lengths is the correct quantum or one
too fine; in the latter case (detected by a rounded significand reaching
`2 ^ 53` from above the binade boundary) the division is redone one
position coarser. -/
def roundPosF64 (a d : ℕ) : Option (ℕ × ℤ) :=
  let E : ℤ := (bitLen a : ℤ) - (bitLen d : ℤ)
  let q0 : ℤ := max (E - 53) (-1074)
  let M0 : ℕ := rheDivPow a d q0
  let needCoarser : Bool :=
    decide (2 ^ 53 < M0) || (decide (M0 = 2 ^ 53) && !(ratLtPow2 a d (q0 + 53)))
  let Mq : ℕ × ℤ := if needCoarser then (rheDivPow a d (q0 + 1), q0 + 1) else (M0, q0)
  if 0 ≤ Mq.2 ∧ 2 ^ 1024 ≤ Mq.1 * 2 ^ Mq.2.toNat then none else some Mq

/-- An IEEE binary64 value as far as this pipeline can produce one:
a finite value `m * 2 ^ q` (signed integral significand) or an infinity.
(NaN cannot arise: the modelled grammar produces no NaN and `1.0 - p` of
a non-NaN is non-NaN.) -/
inductive F64 where
  | finite (m : ℤ) (q : ℤ)
  | inf (neg : Bool)
deriving DecidableEq

/-- The value step of `str::parse::<f64>()`: the exact decimal value
rounded to the nearest binary64, ties to even. -/
def toF64 (x : DecimalVal) : F64 :=
  if x.mantissa = 0 then .finite 0 0
  else
    match roundPosF64 x.mantissa.natAbs (10 ^ x.scale) with
    | some Mq => .finite (if x.mantissa < 0 then -(Mq.1 : ℤ) else (Mq.1 : ℤ)) Mq.2
    | none => .inf (x.mantissa < 0)

/-- IEEE `1.0 - p`: the exact difference, rounded to the nearest
binary64, ties to even. -/
def oneMinusF : F64 → F64
  | .inf neg => .inf (!neg)
  | .finite m q =>
    let n : ℤ := if 0 ≤ q then 1 - m * 2 ^ q.toNat else 2 ^ (-q).toNat - m
    let d : ℕ := if 0 ≤ q then 1 else 2 ^ (-q).toNat
    if n = 0 then .finite 0 0
    else
      match roundPosF64 n.natAbs d with
      | some Mq => .finite (if n < 0 then -(Mq.1 : ℤ) else (Mq.1 : ℤ)) Mq.2
      | none => .inf (n < 0)

/-- Model of `format!("\x7b:.2\x7d", x)` for a binary64 `x`: the exact value
of `x`, rounded to two decimal places with ties to even, rendered with
exactly two fractional digits; negative values keep their sign even when
they round to zero (Rust prints `-0.00`). -/
def fmtF64 : F64 → String
  | .finite m q =>
    let n2 : ℤ := if 0 ≤ q then m * 2 ^ q.toNat * 100
                  else divRoundHalfEven (m * 100) (2 ^ (-q).toNat)
    let a := n2.natAbs
    let core := toString (a / 100) ++ "." ++ pad2 (a % 100)
    if m < 0 then "-" ++ core else core
  | .inf neg => if neg then "-inf" else "inf"

/-- Top-of-book state for a market (`OrderbookState`, lines 14-25).  The
`Default` values of Rust (`String::new()` and `0`) are the field defaults. -/
structure OrderbookState where
  up_bid_price : String := ""
  up_bid_size : String := ""
  up_ask_price : String := ""
  up_ask_size : String := ""
  down_bid_price : String := ""
  down_bid_size : String := ""
  down_ask_price : String := ""
  down_ask_size : String := ""
  last_update_ms : ℤ := 0
deriving DecidableEq

/-- The two configured instrument identifiers (`OrderbookConfig`). -/
structure OrderbookConfig where
  token_up : String
  token_down : String

/-- Lines 159-162: the asset-identifier value under the accepted key
aliases, in priority order `asset_id`, `assetId`, `token_id`. -/
def rawAssetVal (data : JsonVal) : Option JsonVal :=
  ((data.getKey "asset_id").orElse fun _ => data.getKey "assetId").orElse
    fun _ => data.getKey "token_id"

/-- Line 163: the asset identifier as a string (the `and_then(as_str)`). -/
def assetIdOf (data : JsonVal) : Option String :=
  (rawAssetVal data).bind JsonVal.asStr

/-- Lines 172-176: the `bids` array, empty when absent or not an array. -/
def bidsOf (data : JsonVal) : List JsonVal :=
  ((data.getKey "bids").bind JsonVal.asArr).getD []

/-- Lines 177-181: the `asks` array, empty when absent or not an array. -/
def asksOf (data : JsonVal) : List JsonVal :=
  ((data.getKey "asks").bind JsonVal.asArr).getD []

/-- Lines 185-187: the price and size strings of one book level; `none`
when either field is absent or not a string. -/
def extractEntry (entry : JsonVal) : Option (String × String) :=
  ((entry.getKey "price").bind JsonVal.asStr).bind fun price =>
    ((entry.getKey "size").bind JsonVal.asStr).bind fun size =>
      some (price, size)

/-- Lines 184-193: the best entry of one side, taken from the last array
element only. -/
def bestOf (levels : List JsonVal) : Option (String × String) :=
  levels.getLast?.bind extractEntry

/-- The best bid `process_message` uses for mutation. -/
def bestBidOf (data : JsonVal) : Option (String × String) :=
  bestOf (bidsOf data)

/-- The best ask `process_message` uses for mutation. -/
def bestAskOf (data : JsonVal) : Option (String × String) :=
  bestOf (asksOf data)

/-- Lines 206-225: the UP branch of the state mutation.  A best bid writes
the UP bid fields and, when its price parses, the derived DOWN ask; a best
ask writes the UP ask fields and, when its price parses, the derived DOWN
bid. -/
def applyUp (best_bid best_ask : Option (String × String))
    (s0 : OrderbookState) : OrderbookState :=
  let s1 :=
    match best_bid with
    | some (price, size) =>
      let s := { s0 with up_bid_price := price, up_bid_size := size }
      match parseDecimal price with
      | some p => { s with down_ask_price := fmtF64 (oneMinusF (toF64 p)),
                           down_ask_size := size }
      | none => s
    | none => s0
  match best_ask with
  | some (price, size) =>
    let s := { s1 with up_ask_price := price, up_ask_size := size }
    match parseDecimal price with
    | some p => { s with down_bid_price := fmtF64 (oneMinusF (toF64 p)),
                         down_bid_size := size }
    | none => s
  | none => s1

/-- Lines 226-246: the DOWN branch of the state mutation, symmetric to
`applyUp`. -/
def applyDown (best_bid best_ask : Option (String × String))
    (s0 : OrderbookState) : OrderbookState :=
  let s1 :=
    match best_bid with
    | some (price, size) =>
      let s := { s0 with down_bid_price := price, down_bid_size := size }
      match parseDecimal price with
      | some p => { s with up_ask_price := fmtF64 (oneMinusF (toF64 p)),
                           up_ask_size := size }
      | none => s
    | none => s0
  match best_ask with
  | some (price, size) =>
    let s := { s1 with down_ask_price := price, down_ask_size := size }
    match parseDecimal price with
    | some p => { s with up_bid_price := fmtF64 (oneMinusF (toF64 p)),
                         up_bid_size := size }
    | none => s
  | none => s1

/-- Lines 151-252, `process_message`, made pure: the inbound frame is its
parse result, the lock-guarded mutation becomes a returned state, and the
wall clock is the explicit `now_ms`.  The outcome component is the Rust
`Option<bool>`: `none` = parse/extraction failure (the spec's `Ignored`),
`some false` = no mutation (the spec's `NoChange`), `some true` = state
mutated (the spec's `Applied`). -/
def process_message (dataJ : Option JsonVal) (config : OrderbookConfig)
    (st : OrderbookState) (now_ms : ℤ) : Option Bool × OrderbookState :=
  match dataJ with
  | none => (none, st)
  | some data =>
    match assetIdOf data with
    | none => (none, st)
    | some asset_id =>
      let is_up := asset_id == config.token_up
      let is_down := asset_id == config.token_down
      if !is_up && !is_down then (some false, st)
      else
        let best_bid := bestBidOf data
        let best_ask := bestAskOf data
        if best_bid.isNone && best_ask.isNone then (some false, st)
        else
          let s1 := if is_up then applyUp best_bid best_ask st
                    else applyDown best_bid best_ask st
          (some true, { s1 with last_update_ms := now_ms })

/-- Lines 137-142 of `run_websocket_loop`: a `StateUpdated` signal is
published exactly when `process_message` returned `Some(true)`. -/
def loopSignal (dataJ : Option JsonVal) (config : OrderbookConfig)
    (st : OrderbookState) (now_ms : ℤ) : Bool :=
  (process_message dataJ config st now_ms).1 == some true

/-- Events of one iteration of the ingestion loop, in source order. -/
inductive BookEv where
  | acquireWrite
  | releaseWrite (snapshot : OrderbookState)
  | publish
deriving DecidableEq

/-- Event trace of one loop iteration: the write lock is acquired (line
204) and released (line 249, end of the guarded block, with the mutated
snapshot then visible to readers) only on the `Some(true)` path of
`process_message`, and `run_websocket_loop` publishes the signal (line
140) after `process_message` has returned. -/
def loopTrace (dataJ : Option JsonVal) (config : OrderbookConfig)
    (st : OrderbookState) (now_ms : ℤ) : List BookEv :=
  let r := process_message dataJ config st now_ms
  if r.1 = some true then
    [BookEv.acquireWrite, BookEv.releaseWrite r.2, BookEv.publish]
  else []

/-- The eight price/size fields, in declaration order (the timestamp left
out): the part of the state claim C7's idempotence is about. -/
def priceFields (s : OrderbookState) : List String :=
  [s.up_bid_price, s.up_bid_size, s.up_ask_price, s.up_ask_size,
   s.down_bid_price, s.down_bid_size, s.down_ask_price, s.down_ask_size]

/-- Configuration used for concrete instances: UP and DOWN identifiers. -/
def cfgUD : OrderbookConfig := ⟨"UP", "DOWN"⟩

/-- The all-default initial state (`OrderbookState::default()`). -/
def stEmpty : OrderbookState := {}

/-- The spec's scenario frame:
`{"asset_id":"UP_ID","bids":[["price":"0.40","size":"100"]]}` with
`UP_ID` instantiated as `"UP"`. -/
def frameScenario : JsonVal :=
  .jobj [("asset_id", .jstr "UP"),
         ("bids", .jarr [.jobj [("price", .jstr "0.40"), ("size", .jstr "100")]])]

/-- A well-formed frame whose identifier matches neither instrument. -/
def frameOther : JsonVal := .jobj [("asset_id", .jstr "OTHER")]

/-- A frame whose `asset_id` is a number while the lower-priority alias
`assetId` holds a string matching the UP instrument. -/
def frameShadow : JsonVal :=
  .jobj [("asset_id", .jnum 7), ("assetId", .jstr "UP")]

/-- A recognized frame whose best-bid price string is not numeric. -/
def frameBadPrice : JsonVal :=
  .jobj [("asset_id", .jstr "UP"),
         ("bids", .jarr [.jobj [("price", .jstr "abc"), ("size", .jstr "5")]])]

/-- A recognized frame whose best-bid price is `"1.5"`, outside `[0, 1]`. -/
def frameBig : JsonVal :=
  .jobj [("asset_id", .jstr "UP"),
         ("bids", .jarr [.jobj [("price", .jstr "1.5"), ("size", .jstr "7")]])]

/-! ## Branch lemmas for `process_message` -/

theorem pm_no_asset (cfg : OrderbookConfig) (st : OrderbookState) (now : ℤ)
    (d : JsonVal) (h : assetIdOf d = none) :
    process_message (some d) cfg st now = (none, st) := by
  simp [process_message, h]

theorem pm_neither (cfg : OrderbookConfig) (st : OrderbookState) (now : ℤ)
    (d : JsonVal) (id : String) (h : assetIdOf d = some id)
    (hu : id ≠ cfg.token_up) (hd : id ≠ cfg.token_down) :
    process_message (some d) cfg st now = (some false, st) := by
  have h1 : (id == cfg.token_up) = false := beq_eq_false_iff_ne.mpr hu
  have h2 : (id == cfg.token_down) = false := beq_eq_false_iff_ne.mpr hd
  simp [process_message, h, h1, h2]

theorem pm_nodata (cfg : OrderbookConfig) (st : OrderbookState) (now : ℤ)
    (d : JsonVal) (id : String) (h : assetIdOf d = some id)
    (hb : bestBidOf d = none) (ha : bestAskOf d = none) :
    process_message (some d) cfg st now = (some false, st) := by
  simp [process_message, h, hb, ha]

theorem pm_up_applied (cfg : OrderbookConfig) (st : OrderbookState) (now : ℤ)
    (d : JsonVal) (h : assetIdOf d = some cfg.token_up)
    (hdata : bestBidOf d ≠ none ∨ bestAskOf d ≠ none) :
    process_message (some d) cfg st now =
      (some true,
       { applyUp (bestBidOf d) (bestAskOf d) st with last_update_ms := now }) := by
  have hcond : ((bestBidOf d).isNone && (bestAskOf d).isNone) = false := by
    cases hb2 : bestBidOf d <;> cases ha2 : bestAskOf d <;> simp_all
  simp [process_message, h, hcond]

theorem pm_down_applied (cfg : OrderbookConfig) (st : OrderbookState) (now : ℤ)
    (d : JsonVal) (h : assetIdOf d = some cfg.token_down)
    (hne : cfg.token_down ≠ cfg.token_up)
    (hdata : bestBidOf d ≠ none ∨ bestAskOf d ≠ none) :
    process_message (some d) cfg st now =
      (some true,
       { applyDown (bestBidOf d) (bestAskOf d) st with last_update_ms := now }) := by
  have h1 : (cfg.token_down == cfg.token_up) = false := beq_eq_false_iff_ne.mpr hne
  have hcond : ((bestBidOf d).isNone && (bestAskOf d).isNone) = false := by
    cases hb2 : bestBidOf d <;> cases ha2 : bestAskOf d <;> simp_all
  simp [process_message, h, h1, hcond]

theorem pm_some_outcome (cfg : OrderbookConfig) (st : OrderbookState) (now : ℤ)
    (d : JsonVal) (id : String) (h : assetIdOf d = some id) :
    ∃ b, (process_message (some d) cfg st now).1 = some b := by
  simp only [process_message, h]
  split
  · exact ⟨false, rfl⟩
  · split
    · exact ⟨false, rfl⟩
    · exact ⟨true, rfl⟩

/-! ## Claims -/

/-- C3, as stated, is false on the code: the well-formed frame
`frameOther` matches neither configured instrument, yet
`process_message` returns `some false` — the same outcome value as the
`NoChange` case — and not the `none` value that encodes `Ignored`
(parse failure / missing identifier). -/
theorem c3_counterexample :
    assetIdOf frameOther = some "OTHER" ∧
    "OTHER" ≠ cfgUD.token_up ∧ "OTHER" ≠ cfgUD.token_down ∧
    (process_message (some frameOther) cfgUD stEmpty 0).1 = some false ∧
    (process_message (some frameOther) cfgUD stEmpty 0).1 ≠ none := by
  decide

/-- C3 (amended): `process_message` returns the `none` (`Ignored`)
outcome exactly when the message is not parseable JSON or lacks a string
asset identifier under the accepted key aliases; a well-formed frame
whose identifier matches neither configured instrument yields
`some false`, the same outcome as `NoChange`. -/
theorem c3_theorem (cfg : OrderbookConfig) (st : OrderbookState) (now : ℤ) :
    (∀ dataJ : Option JsonVal,
      (process_message dataJ cfg st now).1 = none ↔
        ∀ d, dataJ = some d → assetIdOf d = none) ∧
    (∀ (d : JsonVal) (id : String), assetIdOf d = some id →
      id ≠ cfg.token_up → id ≠ cfg.token_down →
      (process_message (some d) cfg st now).1 = some false) := by
  constructor
  · intro dataJ
    cases dataJ with
    | none => simp [process_message]
    | some d =>
      cases hA : assetIdOf d with
      | none => simp [pm_no_asset cfg st now d hA, hA]
      | some id =>
        obtain ⟨b, hb⟩ := pm_some_outcome cfg st now d id hA
        simp [hb, hA]
  · intro d id hA hu hd
    simp [pm_neither cfg st now d id hA hu hd]

/-- Witness for C3 (amended), at the concrete unrelated-identifier frame. -/
theorem c3_witness :
    (process_message (some frameOther) cfgUD stEmpty 0).1 = some false :=
  (c3_theorem cfgUD stEmpty 0).2 frameOther "OTHER" rfl (by decide) (by decide)

/-- C4: processing a frame whose asset identifier matches neither
configured instrument leaves every field of the state (including
`last_update_ms`) unchanged and publishes no `StateUpdated` signal. -/
theorem c4_theorem (cfg : OrderbookConfig) (st : OrderbookState) (now : ℤ)
    (d : JsonVal) (id : String) (h : assetIdOf d = some id)
    (hu : id ≠ cfg.token_up) (hd : id ≠ cfg.token_down) :
    process_message (some d) cfg st now = (some false, st) ∧
    loopSignal (some d) cfg st now = false := by
  have hp := pm_neither cfg st now d id h hu hd
  refine ⟨hp, ?_⟩
  simp [loopSignal, hp]

/-- Witness for C4 at the concrete unrelated-identifier frame. -/
theorem c4_witness :
    process_message (some frameOther) cfgUD stEmpty 0 = (some false, stEmpty) ∧
    loopSignal (some frameOther) cfgUD stEmpty 0 = false :=
  c4_theorem cfgUD stEmpty 0 frameOther "OTHER" rfl (by decide) (by decide)

/-- C9: the asset identifier comes from the first present key among
`asset_id`, `assetId`, `token_id` in that priority order, and a present
but non-string higher-priority value makes the outcome `none` (`Ignored`)
regardless of any lower-priority alias. -/
theorem c9_theorem (d : JsonVal) (cfg : OrderbookConfig) (st : OrderbookState)
    (now : ℤ) (v : JsonVal) :
    (d.getKey "asset_id" = some v → rawAssetVal d = some v) ∧
    (d.getKey "asset_id" = none → d.getKey "assetId" = some v →
      rawAssetVal d = some v) ∧
    (d.getKey "asset_id" = none → d.getKey "assetId" = none →
      rawAssetVal d = d.getKey "token_id") ∧
    (d.getKey "asset_id" = some v → v.asStr = none →
      (process_message (some d) cfg st now).1 = none) := by
  refine ⟨?_, ?_, ?_, ?_⟩
  · intro h1
    simp [rawAssetVal, h1, Option.orElse]
  · intro h1 h2
    simp [rawAssetVal, h1, h2, Option.orElse]
  · intro h1 h2
    simp [rawAssetVal, h1, h2, Option.orElse]
  · intro h1 hs
    have hA : assetIdOf d = none := by
      simp [assetIdOf, rawAssetVal, h1, Option.orElse, hs]
    simp [pm_no_asset cfg st now d hA]

/-- Witness for C9: a numeric `asset_id` shadows a matching string
`assetId`, and the frame is ignored. -/
theorem c9_witness :
    (process_message (some frameShadow) cfgUD stEmpty 0).1 = none :=
  (c9_theorem frameShadow cfgUD stEmpty 0 (.jnum 7)).2.2.2 rfl rfl

/-- C6: the best entry of a side comes from exactly the last element of
that side's array; a last element whose `price` or `size` is not a string
disqualifies the whole side, whatever the earlier elements contain; and
these are exactly the extractions `process_message` uses. -/
theorem c6_theorem (l : List JsonVal) (v : JsonVal) :
    bestOf (l ++ [v]) = extractEntry v ∧
    (((v.getKey "price").bind JsonVal.asStr = none ∨
      (v.getKey "size").bind JsonVal.asStr = none) →
      bestOf (l ++ [v]) = none) ∧
    (∀ d : JsonVal, bestBidOf d = bestOf (bidsOf d) ∧
      bestAskOf d = bestOf (asksOf d)) := by
  have hlast : bestOf (l ++ [v]) = extractEntry v := by
    simp [bestOf, List.getLast?_concat]
  refine ⟨hlast, ?_, fun d => ⟨rfl, rfl⟩⟩
  intro h
  rw [hlast]
  rcases h with h | h
  · simp [extractEntry, h]
  · cases hp : (v.getKey "price").bind JsonVal.asStr <;>
      simp [extractEntry, hp, h]

/-- Witness for C6: an earlier complete level does not rescue a last
element that lacks a `size` string. -/
theorem c6_witness :
    bestOf ([JsonVal.jobj [("price", .jstr "0.5"), ("size", .jstr "3")]] ++
        [JsonVal.jobj [("price", .jstr "0.9")]]) = none :=
  (c6_theorem [JsonVal.jobj [("price", .jstr "0.5"), ("size", .jstr "3")]]
      (JsonVal.jobj [("price", .jstr "0.9")])).2.1 (Or.inr rfl)

/-- C5: a best bid or ask whose price string does not parse still commits
that side's direct price/size fields, the outcome is still `Applied`
(`some true`, so the ingestion loop simply continues), and only the two
derived complementary fields of that entry are skipped — stated for both
instruments and both book sides. -/
theorem c5_theorem (cfg : OrderbookConfig) (st : OrderbookState) (now : ℤ)
    (d : JsonVal) (p s : String) (hp : parseDecimal p = none) :
    (assetIdOf d = some cfg.token_up → bestBidOf d = some (p, s) →
      bestAskOf d = none →
      process_message (some d) cfg st now =
        (some true, { st with up_bid_price := p, up_bid_size := s,
                              last_update_ms := now })) ∧
    (assetIdOf d = some cfg.token_up → bestAskOf d = some (p, s) →
      bestBidOf d = none →
      process_message (some d) cfg st now =
        (some true, { st with up_ask_price := p, up_ask_size := s,
                              last_update_ms := now })) ∧
    (assetIdOf d = some cfg.token_down → cfg.token_down ≠ cfg.token_up →
      bestBidOf d = some (p, s) → bestAskOf d = none →
      process_message (some d) cfg st now =
        (some true, { st with down_bid_price := p, down_bid_size := s,
                              last_update_ms := now })) ∧
    (assetIdOf d = some cfg.token_down → cfg.token_down ≠ cfg.token_up →
      bestAskOf d = some (p, s) → bestBidOf d = none →
      process_message (some d) cfg st now =
        (some true, { st with down_ask_price := p, down_ask_size := s,
                              last_update_ms := now })) := by
  refine ⟨?_, ?_, ?_, ?_⟩
  · intro hA hb ha
    rw [pm_up_applied cfg st now d hA (Or.inl (by simp [hb])), hb, ha]
    simp [applyUp, hp]
  · intro hA ha hb
    rw [pm_up_applied cfg st now d hA (Or.inr (by simp [ha])), hb, ha]
    simp [applyUp, hp]
  · intro hA hne hb ha
    rw [pm_down_applied cfg st now d hA hne (Or.inl (by simp [hb])), hb, ha]
    simp [applyDown, hp]
  · intro hA hne ha hb
    rw [pm_down_applied cfg st now d hA hne (Or.inr (by simp [ha])), hb, ha]
    simp [applyDown, hp]

/-- Witness for C5: the non-numeric price `"abc"` is still committed as
the UP bid, the derived DOWN ask keeps its default, and the outcome is
`Applied`. -/
theorem c5_witness :
    process_message (some frameBadPrice) cfgUD stEmpty 7 =
      (some true, { stEmpty with up_bid_price := "abc", up_bid_size := "5",
                                 last_update_ms := 7 }) :=
  (c5_theorem cfgUD stEmpty 7 frameBadPrice "abc" "5" (by decide)).1
    rfl (by decide) (by decide)

/-- C8: any frame for a configured instrument from which at least one
best entry is extracted yields `Applied`, refreshes `last_update_ms` and
publishes a signal — with no comparison against the previously stored
values. -/
theorem c8_theorem (cfg : OrderbookConfig) (st : OrderbookState) (now : ℤ)
    (d : JsonVal) (id : String) (h : assetIdOf d = some id)
    (hid : id = cfg.token_up ∨ id = cfg.token_down)
    (hdata : bestBidOf d ≠ none ∨ bestAskOf d ≠ none) :
    (process_message (some d) cfg st now).1 = some true ∧
    (process_message (some d) cfg st now).2.last_update_ms = now ∧
    loopSignal (some d) cfg st now = true := by
  by_cases hup : id = cfg.token_up
  · subst hup
    rw [pm_up_applied cfg st now d h hdata]
    simp [loopSignal, pm_up_applied cfg st now d h hdata]
  · have hdn : id = cfg.token_down := by tauto
    subst hdn
    rw [pm_down_applied cfg st now d h (fun he => hup he) hdata]
    simp [loopSignal, pm_down_applied cfg st now d h (fun he => hup he) hdata]

/-- Witness for C8: the scenario frame applied to a state that already
holds exactly the values to be written still yields `Applied`, a fresh
timestamp and a signal. -/
theorem c8_witness :
    (process_message (some frameScenario) cfgUD
        { up_bid_price := "0.40", up_bid_size := "100",
          down_ask_price := "0.60", down_ask_size := "100",
          last_update_ms := 4 } 5).1 = some true ∧
    (process_message (some frameScenario) cfgUD
        { up_bid_price := "0.40", up_bid_size := "100",
          down_ask_price := "0.60", down_ask_size := "100",
          last_update_ms := 4 } 5).2.last_update_ms = 5 ∧
    loopSignal (some frameScenario) cfgUD
        { up_bid_price := "0.40", up_bid_size := "100",
          down_ask_price := "0.60", down_ask_size := "100",
          last_update_ms := 4 } 5 = true :=
  c8_theorem cfgUD
    { up_bid_price := "0.40", up_bid_size := "100",
      down_ask_price := "0.60", down_ask_size := "100", last_update_ms := 4 }
    5 frameScenario "UP" rfl (Or.inl rfl) (Or.inl (by decide))

/-- The IEEE pipeline agrees with the native one at the binade boundary
price `"0.005"`: the nearest double lies above `0.005`, so `1.0 - p`
falls strictly below `0.995` and formats as `"0.99"` (an exact-decimal
model with ties to even would print `"1.00"` here). -/
theorem fmtF64_oneMinusF_0005 :
    parseDecimal "0.005" = some ⟨5, 3⟩ ∧
    toF64 ⟨5, 3⟩ = .finite 5764607523034235 (-60) ∧
    oneMinusF (toF64 ⟨5, 3⟩) = .finite 8962163258467287 (-53) ∧
    fmtF64 (oneMinusF (toF64 ⟨5, 3⟩)) = "0.99" := by
  decide

/-- At `"0.125"` both steps are exact and the format step hits the exact
decimal tie `0.875`, which rounds to even: `"0.88"`. -/
theorem fmtF64_oneMinusF_0125 :
    fmtF64 (oneMinusF (toF64 ⟨125, 3⟩)) = "0.88" := by
  decide

/-- At `"0.335"` the subtraction itself rounds (tie to even, upward), so
the result lies just above `0.665` and formats as `"0.67"`. -/
theorem fmtF64_oneMinusF_0335 :
    fmtF64 (oneMinusF (toF64 ⟨335, 3⟩)) = "0.67" := by
  decide

/-- A price just above one yields a tiny negative difference, printed
with its sign as `"-0.00"`. -/
theorem fmtF64_oneMinusF_1001 :
    fmtF64 (oneMinusF (toF64 ⟨1001, 3⟩)) = "-0.00" := by
  decide

/-- A best bid with a parseable price always writes the derived opposite
ask on the UP branch, whatever the ask entry does. -/
theorem applyUp_bid_parsed (p s : String) (q : DecimalVal)
    (ba : Option (String × String)) (st : OrderbookState)
    (hq : parseDecimal p = some q) :
    (applyUp (some (p, s)) ba st).down_ask_price = fmtF64 (oneMinusF (toF64 q)) ∧
    (applyUp (some (p, s)) ba st).down_ask_size = s := by
  rcases ba with _ | ⟨p2, s2⟩
  · simp [applyUp, hq]
  · cases hq2 : parseDecimal p2 <;> simp [applyUp, hq, hq2]

/-- C10: no range validation is applied to prices — whenever the best-bid
price of an UP frame parses as the decimal `q`, the derived DOWN ask is
written as the two-decimal rendering of the binary64 computation
`1.0 - q`, with no condition on `q`; in particular `"1.5"` parses and
yields the negative derived price `"-0.50"`. -/
theorem c10_theorem (cfg : OrderbookConfig) (st : OrderbookState) (now : ℤ)
    (d : JsonVal) (p s : String) (q : DecimalVal)
    (h : assetIdOf d = some cfg.token_up)
    (hb : bestBidOf d = some (p, s)) (hq : parseDecimal p = some q) :
    (process_message (some d) cfg st now).2.down_ask_price =
      fmtF64 (oneMinusF (toF64 q)) ∧
    (process_message (some d) cfg st now).2.down_ask_size = s ∧
    parseDecimal "1.5" = some ⟨15, 1⟩ ∧
    fmtF64 (oneMinusF (toF64 ⟨15, 1⟩)) = "-0.50" := by
  rw [pm_up_applied cfg st now d h (Or.inl (by simp [hb])), hb]
  have hd := applyUp_bid_parsed p s q (bestAskOf d) st hq
  exact ⟨hd.1, hd.2, by decide, by decide⟩

/-- Witness for C10: the out-of-range price `"1.5"` commits the derived
DOWN ask `"-0.50"`. -/
theorem c10_witness :
    (process_message (some frameBig) cfgUD stEmpty 3).2.down_ask_price = "-0.50" :=
  (c10_theorem cfgUD stEmpty 3 frameBig "1.5" "7" ⟨15, 1⟩ rfl (by decide)
    (by decide)).1

/-- C1, as stated, is false on the code: `last_update_ms` is a field of
the State Store, and processing the spec's own scenario frame changes it
(to the processing time) although the claim requires every field other
than the four written price/size fields to keep its prior value. -/
theorem c1_counterexample :
    assetIdOf frameScenario = some cfgUD.token_up ∧
    bestBidOf frameScenario = some ("0.40", "100") ∧
    (process_message (some frameScenario) cfgUD stEmpty 5).2.last_update_ms ≠
      stEmpty.last_update_ms := by
  decide

/-- C1 (amended): for a best-bid update on a configured instrument whose
price string parses as the decimal `q` and which carries no extractable
best ask, the instrument's bid price/size are set to the update's values,
the opposite instrument's ask becomes the two-decimal rendering of the
binary64 computation `1.0 - q` with the update's size, every other
price/size field keeps its prior value, and `last_update_ms` is
refreshed to the processing time. -/
theorem c1_theorem (cfg : OrderbookConfig) (st : OrderbookState) (now : ℤ)
    (d : JsonVal) (p s : String) (q : DecimalVal)
    (hq : parseDecimal p = some q)
    (hb : bestBidOf d = some (p, s)) (ha : bestAskOf d = none) :
    (assetIdOf d = some cfg.token_up →
      process_message (some d) cfg st now =
        (some true, { st with up_bid_price := p, up_bid_size := s,
                              down_ask_price := fmtF64 (oneMinusF (toF64 q)),
                              down_ask_size := s,
                              last_update_ms := now })) ∧
    (assetIdOf d = some cfg.token_down → cfg.token_down ≠ cfg.token_up →
      process_message (some d) cfg st now =
        (some true, { st with down_bid_price := p, down_bid_size := s,
                              up_ask_price := fmtF64 (oneMinusF (toF64 q)),
                              up_ask_size := s,
                              last_update_ms := now })) := by
  constructor
  · intro hA
    rw [pm_up_applied cfg st now d hA (Or.inl (by simp [hb])), hb, ha]
    simp [applyUp, hq]
  · intro hA hne
    rw [pm_down_applied cfg st now d hA hne (Or.inl (by simp [hb])), hb, ha]
    simp [applyDown, hq]

/-- Witness for C1 (amended): the spec's scenario, with the derived
DOWN ask `"0.60"`. -/
theorem c1_witness :
    process_message (some frameScenario) cfgUD stEmpty 5 =
      (some true, { stEmpty with up_bid_price := "0.40", up_bid_size := "100",
                                 down_ask_price := "0.60",
                                 down_ask_size := "100",
                                 last_update_ms := 5 }) :=
  (c1_theorem cfgUD stEmpty 5 frameScenario "0.40" "100" ⟨40, 2⟩ (by decide)
    (by decide) rfl).1 rfl

/-- C2: on every `Applied` outcome, the event trace of the loop iteration
releases the exclusive write lock — with the mutated snapshot committed —
strictly before the `StateUpdated` signal is published, so a consumer
reading the store after the signal observes at least that mutation. -/
theorem c2_theorem (dataJ : Option JsonVal) (cfg : OrderbookConfig)
    (st : OrderbookState) (now : ℤ)
    (h : (process_message dataJ cfg st now).1 = some true) :
    loopTrace dataJ cfg st now =
      [BookEv.acquireWrite,
       BookEv.releaseWrite (process_message dataJ cfg st now).2,
       BookEv.publish] ∧
    ∀ i, (loopTrace dataJ cfg st now).get? i = some BookEv.publish →
      ∃ j, j < i ∧ (loopTrace dataJ cfg st now).get? j =
        some (BookEv.releaseWrite (process_message dataJ cfg st now).2) := by
  have ht : loopTrace dataJ cfg st now =
      [BookEv.acquireWrite,
       BookEv.releaseWrite (process_message dataJ cfg st now).2,
       BookEv.publish] := by
    simp [loopTrace, h]
  refine ⟨ht, ?_⟩
  intro i hi
  rw [ht] at hi
  match i with
  | 0 => simp at hi
  | 1 => simp at hi
  | 2 =>
    refine ⟨1, by omega, ?_⟩
    rw [ht]
    simp [List.get?]
  | n + 3 => simp [List.get?] at hi

/-- The UP branch never touches the timestamp, so it commutes with
setting `last_update_ms`. -/
theorem applyUp_ts (bb ba : Option (String × String)) (s : OrderbookState)
    (t : ℤ) :
    applyUp bb ba { s with last_update_ms := t } =
      { applyUp bb ba s with last_update_ms := t } := by
  rcases bb with _ | ⟨p, sz⟩ <;> rcases ba with _ | ⟨p2, sz2⟩ <;>
    simp only [applyUp] <;>
    (try cases parseDecimal p) <;> (try cases parseDecimal p2) <;> rfl

/-- The DOWN branch never touches the timestamp. -/
theorem applyDown_ts (bb ba : Option (String × String)) (s : OrderbookState)
    (t : ℤ) :
    applyDown bb ba { s with last_update_ms := t } =
      { applyDown bb ba s with last_update_ms := t } := by
  rcases bb with _ | ⟨p, sz⟩ <;> rcases ba with _ | ⟨p2, sz2⟩ <;>
    simp only [applyDown] <;>
    (try cases parseDecimal p) <;> (try cases parseDecimal p2) <;> rfl

/-- The UP branch writes only values computed from the update itself, so
applying it twice is the same as applying it once. -/
theorem applyUp_idem (bb ba : Option (String × String)) (s : OrderbookState) :
    applyUp bb ba (applyUp bb ba s) = applyUp bb ba s := by
  rcases bb with _ | ⟨p, sz⟩ <;> rcases ba with _ | ⟨p2, sz2⟩ <;>
    simp only [applyUp] <;>
    (try cases parseDecimal p) <;> (try cases parseDecimal p2) <;> rfl

/-- The DOWN branch writes only values computed from the update itself. -/
theorem applyDown_idem (bb ba : Option (String × String)) (s : OrderbookState) :
    applyDown bb ba (applyDown bb ba s) = applyDown bb ba s := by
  rcases bb with _ | ⟨p, sz⟩ <;> rcases ba with _ | ⟨p2, sz2⟩ <;>
    simp only [applyDown] <;>
    (try cases parseDecimal p) <;> (try cases parseDecimal p2) <;> rfl

/-- C7: replaying an identical frame twice leaves the eight price/size
fields exactly as after a single application (the two runs may use
different wall-clock times `t1`, `t2`), because each derived value is
recomputed from the incoming update's raw price, never from a previously
derived field. -/
theorem c7_theorem (dataJ : Option JsonVal) (cfg : OrderbookConfig)
    (st : OrderbookState) (t1 t2 : ℤ) :
    priceFields
        (process_message dataJ cfg (process_message dataJ cfg st t1).2 t2).2 =
      priceFields (process_message dataJ cfg st t1).2 := by
  cases dataJ with
  | none => rfl
  | some d =>
    cases hA : assetIdOf d with
    | none =>
      rw [pm_no_asset cfg st t1 d hA, pm_no_asset cfg st t2 d hA]
    | some id =>
      by_cases hbd : bestBidOf d = none ∧ bestAskOf d = none
      · rw [pm_nodata cfg st t1 d id hA hbd.1 hbd.2,
            pm_nodata cfg st t2 d id hA hbd.1 hbd.2]
      · have hdata : bestBidOf d ≠ none ∨ bestAskOf d ≠ none := by
          rw [not_and_or] at hbd
          exact hbd
        by_cases hu : id = cfg.token_up
        · subst hu
          rw [pm_up_applied cfg st t1 d hA hdata,
              pm_up_applied cfg _ t2 d hA hdata, applyUp_ts, applyUp_idem]
          rfl
        · by_cases hd : id = cfg.token_down
          · subst hd
            have hne : cfg.token_down ≠ cfg.token_up := hu
            rw [pm_down_applied cfg st t1 d hA hne hdata,
                pm_down_applied cfg _ t2 d hA hne hdata,
                applyDown_ts, applyDown_idem]
            rfl
          · rw [pm_neither cfg st t1 d id hA hu hd,
                pm_neither cfg st t2 d id hA hu hd]

/-- Witness for C2 at the scenario frame. -/
theorem c2_witness :
    loopTrace (some frameScenario) cfgUD stEmpty 5 =
      [BookEv.acquireWrite,
       BookEv.releaseWrite
         (process_message (some frameScenario) cfgUD stEmpty 5).2,
       BookEv.publish] ∧
    ∀ i, (loopTrace (some frameScenario) cfgUD stEmpty 5).get? i =
        some BookEv.publish →
      ∃ j, j < i ∧ (loopTrace (some frameScenario) cfgUD stEmpty 5).get? j =
        some (BookEv.releaseWrite
          (process_message (some frameScenario) cfgUD stEmpty 5).2) :=
  c2_theorem (some frameScenario) cfgUD stEmpty 5 (by decide)

end PolyArb
